import Mathlib

/-!
Verification of the component-type registry core
(`python_modules/libraries/dagster-dg/dagster_dg/component.py`).

The Python source is shallowly embedded: pure functions become Lean
functions, fallible Python code (raising exceptions) returns
`Except PyError`, Python dicts become insertion-ordered association
lists with unique keys, and the stateful construction routine threads
an explicit `ExecState` (cache contents plus a trace of external
process invocations).  The `DgContext` collaborator, the standard
`json` module and `is_valid_json` live outside the embedded file and
are modelled from the spec's interface contracts (each such definition
says so in its doc comment).
-/

/-- Errors raised by the embedded Python code.  `valueError` carries the
message; `typeError` covers dataclass keyword-argument failures;
`jsonDecodeError` is `json.JSONDecodeError`; `keyError` is a dict/set
`KeyError`; `attributeError` covers calling `.items()`/`.get` on a
non-mapping. -/
inductive PyError where
  | valueError (msg : String)
  | typeError (msg : String)
  | jsonDecodeError
  | keyError
  | attributeError (msg : String)
deriving DecidableEq, Repr

/-- First-match lookup in an association list.  Models `d.get(k)` /
`d[k]` on a Python dict; the dicts built by this embedding have unique
keys, so first-match agrees with dict lookup. -/
def pyLookup {α β : Type} [DecidableEq α] : List (α × β) → α → Option β
  | [], _ => none
  | (k, v) :: rest, a => if k = a then some v else pyLookup rest a

/-- `d[k] = v` on a Python dict: overwrite in place if the key is
present (keeping its position), else append. -/
def pySetItem {α β : Type} [DecidableEq α] (d : List (α × β)) (k : α) (v : β) :
    List (α × β) :=
  if (pyLookup d k).isSome then
    d.map (fun kv => if kv.1 = k then (k, v) else kv)
  else d ++ [(k, v)]

/-- `d.update(m)` on Python dicts: assign every entry of `m` into `d`
in order. -/
def pyUpdate {α β : Type} [DecidableEq α] (d m : List (α × β)) : List (α × β) :=
  m.foldl (fun acc kv => pySetItem acc kv.1 kv.2) d

/-- Remove the (unique) occurrence of `a`; helper for `set.remove`. -/
def pyErase {α : Type} [DecidableEq α] : List α → α → List α
  | [], _ => []
  | x :: xs, a => if x = a then xs else x :: pyErase xs a

/-- `set(paths)` in Python, modelled as the duplicate-free list of first
occurrences (Python's set iteration order is unspecified; this model
fixes it to insertion order). -/
def pySetOfList {α : Type} [DecidableEq α] (l : List α) : List α :=
  l.foldl (fun acc x => if x ∈ acc then acc else acc ++ [x]) []

/-- `s.remove(x)` on a Python set: raises `KeyError` when absent. -/
def pySetRemove {α : Type} [DecidableEq α] (s : List α) (x : α) :
    Except PyError (List α) :=
  if x ∈ s then .ok (pyErase s x) else .error .keyError

/-- JSON values.  Modelled from the spec: the data interchange format of
the collaborator contract is "JSON throughout"; this embedding covers
the fragment the contract uses (objects, arrays, strings, integers,
booleans, null — no floats). -/
inductive Json where
  | null
  | bool (b : Bool)
  | num (n : Int)
  | str (s : String)
  | arr (xs : List Json)
  | obj (kvs : List (String × Json))

/-- Build a unique-key association list the way Python's `json` builds a
dict: successive assignment, so a duplicated key keeps its first
position and its last value. -/
def dedupAssoc (kvs : List (String × Json)) : List (String × Json) :=
  pyUpdate [] kvs

/-- JSON whitespace. -/
def isJsonWs (c : Char) : Bool :=
  c = ' ' || c = '\t' || c = '\n' || c = '\r'

/-- Drop leading JSON whitespace. -/
def skipWs : List Char → List Char
  | [] => []
  | c :: cs => if isJsonWs c then skipWs cs else c :: cs

/-- JSON string escapes recognised by the modelled parser. -/
def escChar (e : Char) : Option Char :=
  if e = 'n' then some '\n'
  else if e = 't' then some '\t'
  else if e = 'r' then some '\r'
  else if e = '"' then some '"'
  else if e = '\\' then some '\\'
  else if e = '/' then some '/'
  else if e = 'b' then some (Char.ofNat 8)
  else if e = 'f' then some (Char.ofNat 12)
  else none

/-- Parse the body of a JSON string (the opening quote already
consumed), returning the decoded characters and the rest of the
input. -/
def parseStrChars : Nat → List Char → Option (List Char × List Char)
  | 0, _ => none
  | _ + 1, [] => none
  | f + 1, c :: cs =>
    if c = '"' then some ([], cs)
    else if c = '\\' then
      match cs with
      | [] => none
      | e :: cs' =>
        match escChar e with
        | some ec => (parseStrChars f cs').map (fun p => (ec :: p.1, p.2))
        | none => none
    else (parseStrChars f cs).map (fun p => (c :: p.1, p.2))

/-- Take a maximal run of decimal digits. -/
def takeDigits : List Char → List Char × List Char
  | [] => ([], [])
  | c :: cs =>
    if c.isDigit then
      let p := takeDigits cs
      (c :: p.1, p.2)
    else ([], c :: cs)

/-- Digit run to a natural number. -/
def digitsToNat (ds : List Char) : Nat :=
  ds.foldl (fun n c => n * 10 + (c.toNat - 48)) 0

/-- Mode of the recursive-descent JSON parser: a whole value, the
members of an object after its `\x7b`, or the items of an array after
its `[`. -/
inductive ParseMode where
  | value
  | objRest (acc : List (String × Json))
  | arrRest (acc : List Json)

/-- Fuelled recursive-descent parser for the modelled JSON fragment.
Every recursive call consumes at least one input character, so fuel
`input length + 1` always suffices. -/
def parseJ : Nat → ParseMode → List Char → Option (Json × List Char)
  | 0, _, _ => none
  | f + 1, .value, cs0 =>
    match skipWs cs0 with
    | 'n' :: 'u' :: 'l' :: 'l' :: r => some (.null, r)
    | 't' :: 'r' :: 'u' :: 'e' :: r => some (.bool true, r)
    | 'f' :: 'a' :: 'l' :: 's' :: 'e' :: r => some (.bool false, r)
    | '"' :: r =>
      (parseStrChars (r.length + 1) r).map (fun p => (.str (String.mk p.1), p.2))
    | '\x7b' :: r =>
      (match skipWs r with
       | '\x7d' :: r' => some (.obj [], r')
       | _ => parseJ f (.objRest []) r)
    | '[' :: r =>
      (match skipWs r with
       | ']' :: r' => some (.arr [], r')
       | _ => parseJ f (.arrRest []) r)
    | '-' :: r =>
      (match takeDigits r with
       | ([], _) => none
       | (ds, r') => some (.num (-(digitsToNat ds : Int)), r'))
    | c :: r =>
      if c.isDigit then
        match takeDigits (c :: r) with
        | (ds, r') => some (.num (digitsToNat ds), r')
      else none
    | [] => none
  | f + 1, .objRest acc, cs0 =>
    match skipWs cs0 with
    | '"' :: r =>
      (match parseStrChars (r.length + 1) r with
       | none => none
       | some (k, r1) =>
         match skipWs r1 with
         | ':' :: r2 =>
           (match parseJ f .value r2 with
            | none => none
            | some (v, r3) =>
              match skipWs r3 with
              | ',' :: r4 => parseJ f (.objRest (acc ++ [(String.mk k, v)])) r4
              | '\x7d' :: r4 => some (.obj (dedupAssoc (acc ++ [(String.mk k, v)])), r4)
              | _ => none)
         | _ => none)
    | _ => none
  | f + 1, .arrRest acc, cs0 =>
    match parseJ f .value cs0 with
    | none => none
    | some (v, r) =>
      match skipWs r with
      | ',' :: r' => parseJ f (.arrRest (acc ++ [v])) r'
      | ']' :: r' => some (.arr (acc ++ [v]), r')
      | _ => none

/-- Modelled from the spec: `json.loads` of the Python standard library
(not part of the embedded file), restricted to the JSON fragment the
collaborator contract uses.  A failed parse is the single error
`json.JSONDecodeError`. -/
def Json.loads (s : String) : Except PyError Json :=
  match parseJ (s.toList.length + 1) ParseMode.value s.toList with
  | some (j, rest) => if (skipWs rest).isEmpty then .ok j else .error .jsonDecodeError
  | none => .error .jsonDecodeError

/-- Escaping used by the modelled `json.dumps` for one character. -/
def escapeOut (c : Char) : List Char :=
  if c = '"' then ['\\', '"']
  else if c = '\\' then ['\\', '\\']
  else if c = '\n' then ['\\', 'n']
  else if c = '\t' then ['\\', 't']
  else if c = '\r' then ['\\', 'r']
  else [c]

/-- Quote a string the way `json.dumps` renders it. -/
def quoteStr (s : String) : String :=
  String.mk ('"' :: s.toList.foldr (fun c acc => escapeOut c ++ acc) ['"'])

mutual

/-- Modelled from the spec: `json.dumps` of the Python standard library
(not part of the embedded file) with its default separators
`", "` and `": "`, on the modelled JSON fragment. -/
def Json.dumps : Json → String
  | .null => "null"
  | .bool true => "true"
  | .bool false => "false"
  | .num n => toString n
  | .str s => quoteStr s
  | .arr xs => "[" ++ dumpsItems xs ++ "]"
  | .obj kvs => "\x7b" ++ dumpsMembers kvs ++ "\x7d"

/-- Comma-separated rendering of array items. -/
def dumpsItems : List Json → String
  | [] => ""
  | [x] => Json.dumps x
  | x :: y :: xs => Json.dumps x ++ ", " ++ dumpsItems (y :: xs)

/-- Comma-separated rendering of object members. -/
def dumpsMembers : List (String × Json) → String
  | [] => ""
  | [(k, v)] => quoteStr k ++ ": " ++ Json.dumps v
  | (k, v) :: m :: kvs => quoteStr k ++ ": " ++ Json.dumps v ++ ", " ++ dumpsMembers (m :: kvs)

end

/-- Modelled from the spec: `is_valid_json` from `dagster_dg.utils`
(declared but not defined under `src/`); the spec describes it as "a
JSON-serialization validity check", i.e. the string parses as JSON. -/
def is_valid_json (s : String) : Bool :=
  match Json.loads s with
  | .ok _ => true
  | .error _ => false

/-- A character of the `[a-zA-Z0-9_]` class of `COMPONENT_TYPE_REGEX`. -/
def isWordChar (c : Char) : Bool :=
  c.isAlphanum || c = '_'

/-- Split a character list at its first `'@'`:
`splitAtSign cs = some (as, bs)` iff `cs = as ++ '@' :: bs` with
`'@' ∉ as`; `none` when `cs` has no `'@'`. -/
def splitAtSign : List Char → Option (List Char × List Char)
  | [] => none
  | c :: cs =>
    if c = '@' then some ([], cs)
    else (splitAtSign cs).map (fun p => (c :: p.1, p.2))

/-- `_name_and_namespace_from_type`: match the full string against
`^([a-zA-Z0-9_]+)@([a-zA-Z0-9_]+)$` and return the two groups, raising
`ValueError` otherwise.  A full match is exactly a decomposition at the
(then unique) `'@'` into two non-empty all-word-character parts. -/
def _name_and_namespace_from_type (typename : String) :
    Except PyError (String × String) :=
  match splitAtSign typename.toList with
  | some (as, bs) =>
    if !as.isEmpty && !bs.isEmpty && as.all isWordChar && bs.all isWordChar then
      .ok (String.mk as, String.mk bs)
    else .error (.valueError ("Invalid component type name: " ++ typename))
  | none => .error (.valueError ("Invalid component type name: " ++ typename))

/-- `ComponentKey`: the tagged union of the two dataclass variants
`GlobalComponentKey (name, namespace)` and
`LocalComponentKey (name, namespace, dirpath)`.  Frozen dataclasses
compare by all fields and by class, so distinct variants are never
equal even with equal fields — `DecidableEq` on this sum captures
that.  (The Python field `namespace` is a Lean keyword and is spelled
`ns` here.) -/
inductive ComponentKey where
  | globalKey (name ns : String)
  | localKey (name ns dirpath : String)
deriving DecidableEq, Repr

/-- Variant test used by `isinstance(key, GlobalComponentKey)`. -/
def ComponentKey.isGlobal : ComponentKey → Bool
  | .globalKey _ _ => true
  | .localKey _ _ _ => false

/-- `to_typename`: canonical text form of a key
(global: `name@namespace`; local: `name@namespace (dirpath)`). -/
def ComponentKey.to_typename : ComponentKey → String
  | .globalKey n ns => n ++ "@" ++ ns
  | .localKey n ns d => n ++ "@" ++ ns ++ " (" ++ d ++ ")"

/-- `GlobalComponentKey.from_typename`. -/
def GlobalComponentKey.from_typename (typename : String) :
    Except PyError ComponentKey := do
  let (name, ns) ← _name_and_namespace_from_type typename
  return ComponentKey.globalKey name ns

/-- `LocalComponentKey.from_type`. -/
def LocalComponentKey.from_type (typename dirpath : String) :
    Except PyError ComponentKey := do
  let (name, ns) ← _name_and_namespace_from_type typename
  return ComponentKey.localKey name ns dirpath

/-- `str.endswith` of Python: suffix test. -/
def strEndsWith (s p : String) : Bool :=
  decide (p.toList <:+ s.toList)

/-- `ComponentKey.from_typename`: a typename ending in `".py"` is routed
to the local-key constructor (which needs `dirpath`); anything else to
the global-key constructor (ignoring `dirpath`). -/
def ComponentKey.from_typename (typename dirpath : String) :
    Except PyError ComponentKey :=
  if strEndsWith typename ".py" then
    LocalComponentKey.from_type typename dirpath
  else
    GlobalComponentKey.from_typename typename

/-- `RemoteComponentType`: the descriptor dataclass.  Its six fields
have no default values, and Python dataclasses do not validate field
types, so each field holds whatever JSON value the keyword argument
supplied. -/
structure RemoteComponentType where
  name : Json
  package : Json
  summary : Json
  description : Json
  scaffold_params_schema : Json
  component_params_schema : Json

/-- The keyword parameters accepted by the `RemoteComponentType`
constructor. -/
def remoteComponentTypeFields : List String :=
  ["name", "package", "summary", "description",
   "scaffold_params_schema", "component_params_schema"]

/-- `RemoteComponentType(**metadata)`: binding a keyword dict to the
dataclass constructor.  A key outside the field set raises
`TypeError` (unexpected keyword argument); a missing field raises
`TypeError` (missing required argument).  There are no default
values, so all six fields must be present. -/
def RemoteComponentType.ofKwargs (kvs : List (String × Json)) :
    Except PyError RemoteComponentType :=
  if kvs.all (fun kv => remoteComponentTypeFields.contains kv.1) then
    match pyLookup kvs "name", pyLookup kvs "package", pyLookup kvs "summary",
        pyLookup kvs "description", pyLookup kvs "scaffold_params_schema",
        pyLookup kvs "component_params_schema" with
    | some n, some p, some s, some d, some sp, some cp =>
      .ok ⟨n, p, s, d, sp, cp⟩
    | _, _, _, _, _, _ => .error (.typeError "missing required argument")
  else .error (.typeError "unexpected keyword argument")

/-- `RemoteComponentType(**metadata)` when `metadata` is an arbitrary
JSON value: `**` requires a mapping. -/
def remoteComponentTypeOfJson (metadata : Json) :
    Except PyError RemoteComponentType :=
  match metadata with
  | .obj kvs => RemoteComponentType.ofKwargs kvs
  | _ => .error (.typeError "argument after ** must be a mapping")

/-- The loop body shared by the two raw-to-typed translators: iterate
the raw items in order and perform the source's assignment
`data[mkKey(typename)] = RemoteComponentType(**metadata)`.  A Python
assignment evaluates its right-hand side before the subscript target,
so the descriptor construction runs — and can raise — before the
typename is parsed into a key. -/
def translateItems (mkKey : String → Except PyError ComponentKey) :
    List (String × Json) → List (ComponentKey × RemoteComponentType) →
    Except PyError (List (ComponentKey × RemoteComponentType))
  | [], acc => .ok acc
  | (typename, metadata) :: rest, acc => do
    let rct ← remoteComponentTypeOfJson metadata
    let key ← mkKey typename
    translateItems mkKey rest (pySetItem acc key rct)

/-- `_get_remote_type_mapping_from_raw_data`: translate a raw global
listing (typename → metadata) into a mapping from global keys to
descriptors.  `.items()` on a non-object raises `AttributeError`. -/
def _get_remote_type_mapping_from_raw_data (raw_data : Json) :
    Except PyError (List (ComponentKey × RemoteComponentType)) :=
  match raw_data with
  | .obj kvs => translateItems GlobalComponentKey.from_typename kvs []
  | _ => .error (.attributeError "items")

/-- `_get_local_type_mapping_from_raw_data`: translate a raw local
listing (typename → metadata) for a given directory into a mapping from
local keys to descriptors. -/
def _get_local_type_mapping_from_raw_data (raw_data : Json) (dirpath : String) :
    Except PyError (List (ComponentKey × RemoteComponentType)) :=
  match raw_data with
  | .obj kvs => translateItems (fun t => LocalComponentKey.from_type t dirpath) kvs []
  | _ => .error (.attributeError "items")

/-- Modelled from the spec: the `DgContext` collaborator contract
(`dagster_dg.context`, not under `src/`).  `has_cache` says whether a
cache store is attached; the two key-derivation functions are opaque
deterministic maps; `external_components_command` invokes the external
discovery process on an argument list, returning raw text or
propagating a process failure. -/
structure DgContext where
  has_cache : Bool
  use_dg_managed_environment : Bool
  get_cache_key : String → String
  get_cache_key_for_local_components : String → String
  external_components_command : List String → Except PyError String

/-- Mutable world threaded through construction: the cache store's
contents, the trace of `external_components_command` invocations in
order, and whether `ensure_uv_lock` has been called.  On a raised
error the state reached so far is kept, as in Python. -/
structure ExecState where
  cache : List (String × String)
  calls : List (List String)
  uv_locked : Bool

/-- Append one external-process invocation to the trace. -/
def recordCall (st : ExecState) (args : List String) : ExecState :=
  { st with calls := st.calls ++ [args] }

/-- `cache.set(key, value)` of the collaborator contract. -/
def cacheSet (st : ExecState) (k v : String) : ExecState :=
  { st with cache := pySetItem st.cache k v }

/-- Modelled from the spec: `ensure_uv_lock` is an idempotent
dependency-lock precondition with no observable result beyond having
been performed. -/
def ensure_uv_lock (st : ExecState) : ExecState :=
  { st with uv_locked := true }

/-- Python truthiness of an `Optional[str]`: `None` and `""` are
falsy. -/
def pyTruthyOptStr : Option String → Bool
  | none => false
  | some s => !s.isEmpty

/-- The cache-read loop of `_retrieve_local_component_types`
(source lines 111–116), run only when the cache is available: iterate
the *requested* path sequence (duplicates included); on a truthy cached
entry, parse it, translate it for that path, merge, and remove the path
from the to-fetch set (a `KeyError` if it is no longer there). -/
def localCacheLoop (ctx : DgContext) (cache : List (String × String)) :
    List String →
    List String × List (ComponentKey × RemoteComponentType) →
    Except PyError (List String × List (ComponentKey × RemoteComponentType))
  | [], acc => .ok acc
  | path :: rest, acc =>
    let cache_key := ctx.get_cache_key_for_local_components path
    match pyLookup cache cache_key with
    | some raw_data =>
      if !raw_data.isEmpty then do
        let parsed ← Json.loads raw_data
        let m ← _get_local_type_mapping_from_raw_data parsed path
        let toFetch ← pySetRemove acc.1 path
        localCacheLoop ctx cache rest (toFetch, pyUpdate acc.2 m)
      else localCacheLoop ctx cache rest acc
    | none => localCacheLoop ctx cache rest acc

/-- The merge loop of `_retrieve_local_component_types` (source lines
127–128): for each to-fetch path, the source passes the *entire* parsed
batch response `local_component_data` — not that path's portion — to
the local translator. -/
def mergeFetchedLoop (respKvs : List (String × Json)) :
    List String → List (ComponentKey × RemoteComponentType) →
    Except PyError (List (ComponentKey × RemoteComponentType))
  | [], data => .ok data
  | path :: rest, data => do
    let m ← _get_local_type_mapping_from_raw_data (Json.obj respKvs) path
    mergeFetchedLoop respKvs rest (pyUpdate data m)

/-- The cache write-back loop of `_retrieve_local_component_types`
(source lines 131–135): for each to-fetch path, serialize that path's
portion of the response (`{}` when absent) and store it under the
path's cache key when the key is truthy and the serialized form is
valid JSON. -/
def writeBackLoop (ctx : DgContext) (respKvs : List (String × Json)) :
    List String → ExecState → ExecState
  | [], st => st
  | path :: rest, st =>
    let cache_key := ctx.get_cache_key_for_local_components path
    let data_for_path_json := Json.dumps ((pyLookup respKvs path).getD (Json.obj []))
    let st' :=
      if !cache_key.isEmpty && is_valid_json data_for_path_json then
        cacheSet st cache_key data_for_path_json
      else st
    writeBackLoop ctx respKvs rest st'

/-- `_retrieve_local_component_types` (source lines 105–137): partition
the requested paths into cached and to-fetch via the cache-read loop;
if anything is left to fetch, invoke the external process once with the
`list local-component-types` command and the to-fetch paths, parse the
response, merge each to-fetch path's translation, and write back per
path. -/
def _retrieve_local_component_types (ctx : DgContext) (paths : List String)
    (st : ExecState) :
    Except PyError (List (ComponentKey × RemoteComponentType)) × ExecState :=
  let paths_to_fetch0 := pySetOfList paths
  let loopRes :=
    if ctx.has_cache then localCacheLoop ctx st.cache paths (paths_to_fetch0, [])
    else .ok (paths_to_fetch0, [])
  match loopRes with
  | .error e => (.error e, st)
  | .ok (paths_to_fetch, data) =>
    if paths_to_fetch.isEmpty then (.ok data, st)
    else
      let args := "list" :: "local-component-types" :: paths_to_fetch
      let st1 := recordCall st args
      match ctx.external_components_command args with
      | .error e => (.error e, st1)
      | .ok raw_local_component_data =>
        match Json.loads raw_local_component_data with
        | .error e => (.error e, st1)
        | .ok (.obj respKvs) =>
          (match mergeFetchedLoop respKvs paths_to_fetch data with
           | .error e => (.error e, st1)
           | .ok data' =>
             if ctx.has_cache then
               (.ok data', writeBackLoop ctx respKvs paths_to_fetch st1)
             else (.ok data', st1))
        | .ok _ => (.error (.attributeError "items"), st1)

/-- `RemoteComponentRegistry`: wraps the mapping from keys (either
variant) to descriptors.  `__init__` shallow-copies the dict, which is
the identity in this model. -/
structure RemoteComponentRegistry where
  _components : List (ComponentKey × RemoteComponentType)

/-- The tail of `from_dg_context` after the raw global registry data is
in hand (source lines 164–171): parse it, translate to global entries,
then merge local entries when local directories were supplied. -/
def fromRawRegistryData (ctx : DgContext) (dirs : List String)
    (raw_registry_data : String) (st : ExecState) :
    Except PyError RemoteComponentRegistry × ExecState :=
  match Json.loads raw_registry_data with
  | .error e => (.error e, st)
  | .ok j =>
    match _get_remote_type_mapping_from_raw_data j with
    | .error e => (.error e, st)
    | .ok m =>
      let component_data := pyUpdate [] m
      if !dirs.isEmpty then
        match _retrieve_local_component_types ctx dirs st with
        | (.error e, st') => (.error e, st')
        | (.ok localData, st') => (.ok ⟨pyUpdate component_data localData⟩, st')
      else (.ok ⟨component_data⟩, st)

/-- The body of `from_dg_context` after the `ensure_uv_lock`
precondition (source lines 152–171): read the global-scope cache entry
when the cache is available, fetch via `list component-types` when that
entry is falsy (writing back only a valid-JSON result under a truthy
key), then translate and merge as in `fromRawRegistryData`. -/
def fromDgContextCore (ctx : DgContext)
    (local_component_type_dirs : List String) (st : ExecState) :
    Except PyError RemoteComponentRegistry × ExecState :=
  let cache_key : Option String :=
    if ctx.has_cache then some (ctx.get_cache_key "component_registry_data")
    else none
  let raw_registry_data : Option String :=
    match cache_key with
    | some k => pyLookup st.cache k
    | none => none
  if !pyTruthyOptStr raw_registry_data then
    let args := ["list", "component-types"]
    let st1 := recordCall st args
    match ctx.external_components_command args with
    | .error e => (.error e, st1)
    | .ok raw =>
      let st2 :=
        if ctx.has_cache &&
            (match cache_key with | some k => !k.isEmpty | none => false) &&
            is_valid_json raw then
          cacheSet st1 (ctx.get_cache_key "component_registry_data") raw
        else st1
      fromRawRegistryData ctx local_component_type_dirs raw st2
  else
    fromRawRegistryData ctx local_component_type_dirs
      (raw_registry_data.getD "") st

/-- `RemoteComponentRegistry.from_dg_context` (source lines 141–171):
ensure the uv lock when the managed environment is in use, then run the
fetch-cache-merge core.  The optional `local_component_type_dirs`
argument is modelled as a list, `[]` standing for Python `None` (both
falsy). -/
def RemoteComponentRegistry.from_dg_context (ctx : DgContext)
    (local_component_type_dirs : List String) (st0 : ExecState) :
    Except PyError RemoteComponentRegistry × ExecState :=
  fromDgContextCore ctx local_component_type_dirs
    (if ctx.use_dg_managed_environment then ensure_uv_lock st0 else st0)

/-- `RemoteComponentRegistry.empty`. -/
def RemoteComponentRegistry.empty : RemoteComponentRegistry := ⟨[]⟩

/-- `has_global` (source lines 180–181): written as a plain membership
test `key in self._components` on the full mapping — there is no
variant check in the source. -/
def RemoteComponentRegistry.has_global (r : RemoteComponentRegistry)
    (key : ComponentKey) : Bool :=
  (pyLookup r._components key).isSome

/-- `get`: direct indexing, `KeyError` when absent. -/
def RemoteComponentRegistry.get (r : RemoteComponentRegistry)
    (key : ComponentKey) : Except PyError RemoteComponentType :=
  match pyLookup r._components key with
  | some v => .ok v
  | none => .error .keyError

/-- `get_global`: `ValueError` on a key that is not a
`GlobalComponentKey`, else direct indexing. -/
def RemoteComponentRegistry.get_global (r : RemoteComponentRegistry)
    (key : ComponentKey) : Except PyError RemoteComponentType :=
  if key.isGlobal then
    match pyLookup r._components key with
    | some v => .ok v
    | none => .error .keyError
  else .error (.valueError "Expected GlobalRemoteComponentKey")

/-- Lexicographic comparison of character lists by code point — the
order Python's `sorted` uses on the `to_typename` strings. -/
def charListLe : List Char → List Char → Bool
  | [], _ => true
  | _ :: _, [] => false
  | a :: as, b :: bs =>
    if a.toNat < b.toNat then true
    else if b.toNat < a.toNat then false
    else charListLe as bs

/-- The sort key of `global_keys`: compare canonical text forms. -/
def keyLeBool (a b : ComponentKey) : Bool :=
  charListLe a.to_typename.toList b.to_typename.toList

/-- `global_keys` (source lines 192–195): sort *all* stored keys by
canonical text form (Python's stable `sorted`), then keep only the
global variant. -/
def RemoteComponentRegistry.global_keys (r : RemoteComponentRegistry) :
    List ComponentKey :=
  ((r._components.map Prod.fst).mergeSort keyLeBool).filter ComponentKey.isGlobal

/-- `global_items` (source lines 197–199): pair each yielded global key
with `get_global key`.  For keys drawn from the mapping the lookup
cannot fail, so the generator is modelled by `filterMap` over the
successful lookups. -/
def RemoteComponentRegistry.global_items (r : RemoteComponentRegistry) :
    List (ComponentKey × RemoteComponentType) :=
  r.global_keys.filterMap (fun k => (pyLookup r._components k).map (fun v => (k, v)))

/-- A name (or namespace) accepted by the identity-model pattern:
non-empty, all characters in `[a-zA-Z0-9_]`. -/
def isValidName (s : String) : Bool :=
  !s.toList.isEmpty && s.toList.all isWordChar

/-- A sample descriptor used in concrete counterexamples. -/
def sampleRct : RemoteComponentType :=
  ⟨.null, .null, .null, .null, .null, .null⟩

/-! ### Helper lemmas about the embedded primitives -/

theorem splitAtSign_cons (c : Char) (cs : List Char) :
    splitAtSign (c :: cs) =
      if c = '@' then some ([], cs)
      else (splitAtSign cs).map (fun p => (c :: p.1, p.2)) := rfl

theorem splitAtSign_eq_some : ∀ {cs as bs : List Char},
    splitAtSign cs = some (as, bs) → cs = as ++ '@' :: bs := by
  intro cs
  induction cs with
  | nil => intro as bs h; simp [splitAtSign] at h
  | cons c cs ih =>
    intro as bs h
    rw [splitAtSign_cons] at h
    by_cases hc : c = '@'
    · rw [if_pos hc] at h
      injection h with hp
      have h1 : ([] : List Char) = as := congrArg Prod.fst hp
      have h2 : cs = bs := congrArg Prod.snd hp
      rw [← h1, ← h2, hc]
      simp
    · rw [if_neg hc] at h
      cases hsp : splitAtSign cs with
      | none => rw [hsp] at h; simp at h
      | some p =>
        rw [hsp] at h
        simp only [Option.map_some'] at h
        injection h with hp
        have h1 : c :: p.1 = as := congrArg Prod.fst hp
        have h2 : p.2 = bs := congrArg Prod.snd hp
        rw [← h1, ← h2]
        have hsp' : splitAtSign cs = some (p.1, p.2) := hsp
        rw [ih hsp']
        simp

theorem splitAtSign_append : ∀ (as bs : List Char), '@' ∉ as →
    splitAtSign (as ++ '@' :: bs) = some (as, bs) := by
  intro as
  induction as with
  | nil => intro bs _; simp [splitAtSign]
  | cons c cs ih =>
    intro bs h
    have hc : ¬c = '@' := fun he => h (he ▸ List.mem_cons_self c cs)
    have hm : '@' ∉ cs := fun hmem => h (List.mem_cons_of_mem c hmem)
    simp [splitAtSign, hc, ih bs hm]

/-- When the typename splits cleanly at one `'@'` into non-empty
all-word-character groups, `_name_and_namespace_from_type` returns
them. -/
theorem nnft_ok {t : String} {as bs : List Char}
    (hsplit : splitAtSign t.toList = some (as, bs))
    (h1 : as.isEmpty = false) (h2 : bs.isEmpty = false)
    (h3 : as.all isWordChar = true) (h4 : bs.all isWordChar = true) :
    _name_and_namespace_from_type t = .ok (String.mk as, String.mk bs) := by
  unfold _name_and_namespace_from_type
  rw [hsplit]
  simp only [h1, h2, h3, h4, Bool.not_false, Bool.and_true, Bool.true_and, if_pos]

/-- If the typename contains any character that is neither a word
character nor `'@'`, the regex cannot match and
`_name_and_namespace_from_type` raises. -/
theorem nnft_error_of_bad_char {t : String} {c : Char}
    (hmem : c ∈ t.toList) (hword : isWordChar c = false) (hat : c ≠ '@') :
    _name_and_namespace_from_type t =
      .error (.valueError ("Invalid component type name: " ++ t)) := by
  unfold _name_and_namespace_from_type
  cases hsplit : splitAtSign t.toList with
  | none => rfl
  | some p =>
    obtain ⟨as, bs⟩ := p
    have hdecomp := splitAtSign_eq_some hsplit
    rw [hdecomp] at hmem
    rcases List.mem_append.mp hmem with hin | hin
    · have : as.all isWordChar = false :=
        List.all_eq_false.mpr ⟨c, hin, by simp [hword]⟩
      simp [this]
    · rcases List.mem_cons.mp hin with hin | hin
      · exact absurd hin hat
      · have : bs.all isWordChar = false :=
          List.all_eq_false.mpr ⟨c, hin, by simp [hword]⟩
        simp [this]

theorem pyLookup_eq_none {α β : Type} [DecidableEq α]
    {l : List (α × β)} {a : α} (h : ∀ k ∈ l.map Prod.fst, k ≠ a) :
    pyLookup l a = none := by
  induction l with
  | nil => rfl
  | cons kv rest ih =>
    have hk : kv.1 ≠ a := h kv.1 (by simp)
    simp only [pyLookup, if_neg hk]
    exact ih (fun k hkmem => h k (by simp [hkmem]))

/-! ### C4 — parsing `.py` typenames -/

/-- Claim C4 (code bug in the source): for every typename ending in
`".py"` the parse is claimed to produce a `LocalComponentKey`; in fact
any such typename contains `'.'`, which the
`name@namespace` pattern excludes, so the local-key branch of
`ComponentKey.from_typename` always raises `ValueError`. -/
theorem from_typename_py_always_fails (t d : String)
    (h : strEndsWith t ".py" = true) :
    ComponentKey.from_typename t d =
      .error (.valueError ("Invalid component type name: " ++ t)) := by
  have hsuff : ['.', 'p', 'y'] <:+ t.toList := by
    have := of_decide_eq_true h
    simpa using this
  obtain ⟨pre, hpre⟩ := hsuff
  have hdot : '.' ∈ t.toList := by
    rw [← hpre]; exact List.mem_append_right pre (by simp)
  have herr := nnft_error_of_bad_char hdot (by decide) (by decide)
  unfold ComponentKey.from_typename
  rw [if_pos h]
  unfold LocalComponentKey.from_type
  rw [herr]
  rfl

/-- Witness: the concrete typename `"foo@bar.py"` ends in `".py"` and
parsing it raises instead of producing a local key. -/
theorem from_typename_py_always_fails_witness :
    strEndsWith "foo@bar.py" ".py" = true ∧
    ComponentKey.from_typename "foo@bar.py" "src/comps" =
      .error (.valueError ("Invalid component type name: " ++ "foo@bar.py")) :=
  ⟨rfl, from_typename_py_always_fails "foo@bar.py" "src/comps" rfl⟩

/-! ### C5 — round-tripping canonical text forms -/

/-- The claim's counterexample: the canonical text of the local key
`("a", "b", "d")` is `"a@b (d)"`, and parsing it (with the same
dirpath supplied) raises `ValueError` — not the round-tripped key the
claim requires. -/
theorem local_roundtrip_fails_concrete :
    ComponentKey.from_typename
        ((ComponentKey.localKey "a" "b" "d").to_typename) "d" =
      .error (.valueError "Invalid component type name: a@b (d)") := rfl

theorem toList_global_typename (n ns : String) :
    (ComponentKey.globalKey n ns).to_typename.toList =
      n.toList ++ '@' :: ns.toList := by
  show ((n ++ "@") ++ ns).data = n.data ++ '@' :: ns.data
  simp [String.data_append]

theorem toList_local_typename (n ns d : String) :
    (ComponentKey.localKey n ns d).to_typename.toList =
      n.toList ++ '@' :: (ns.toList ++ ' ' :: '(' :: (d.toList ++ [')'])) := by
  show (((((n ++ "@") ++ ns) ++ " (") ++ d) ++ ")").data =
    n.data ++ '@' :: (ns.data ++ ' ' :: '(' :: (d.data ++ [')']))
  simp [String.data_append]

theorem isValidName_parts {s : String} (h : isValidName s = true) :
    s.toList.isEmpty = false ∧ s.toList.all isWordChar = true := by
  simp only [isValidName, Bool.and_eq_true, Bool.not_eq_true'] at h
  exact h

theorem at_not_mem_of_valid {s : String} (h : isValidName s = true) :
    '@' ∉ s.toList := by
  intro hmem
  have := List.all_eq_true.mp (isValidName_parts h).2 '@' hmem
  simp [isWordChar] at this

/-- Claim C5, amended: for valid names the *global* variant
round-trips; the *local* variant's canonical text form never reparses
— `from_typename` raises `ValueError` on it. -/
theorem roundtrip_amended (n ns d : String)
    (hn : isValidName n = true) (hns : isValidName ns = true) :
    ComponentKey.from_typename ((ComponentKey.globalKey n ns).to_typename) d =
      .ok (ComponentKey.globalKey n ns) ∧
    ComponentKey.from_typename ((ComponentKey.localKey n ns d).to_typename) d =
      .error (.valueError ("Invalid component type name: " ++
        (ComponentKey.localKey n ns d).to_typename)) := by
  obtain ⟨hn1, hn2⟩ := isValidName_parts hn
  obtain ⟨hns1, hns2⟩ := isValidName_parts hns
  constructor
  · -- global round-trip
    have hglist := toList_global_typename n ns
    have hnoPy : strEndsWith (ComponentKey.globalKey n ns).to_typename ".py" = false := by
      cases hEnds : strEndsWith (ComponentKey.globalKey n ns).to_typename ".py" with
      | false => rfl
      | true =>
        exfalso
        have hsuff : ['.', 'p', 'y'] <:+
            (ComponentKey.globalKey n ns).to_typename.toList := by
          have := of_decide_eq_true hEnds
          simpa using this
        obtain ⟨pre, hpre⟩ := hsuff
        have hdot : '.' ∈ (ComponentKey.globalKey n ns).to_typename.toList := by
          rw [← hpre]; exact List.mem_append_right pre (by simp)
        rw [hglist] at hdot
        rcases List.mem_append.mp hdot with hin | hin
        · have := List.all_eq_true.mp hn2 '.' hin
          simp [isWordChar] at this
        · rcases List.mem_cons.mp hin with hin | hin
          · exact absurd hin (by decide)
          · have := List.all_eq_true.mp hns2 '.' hin
            simp [isWordChar] at this
    have hsplit : splitAtSign (ComponentKey.globalKey n ns).to_typename.toList =
        some (n.toList, ns.toList) := by
      rw [hglist]
      exact splitAtSign_append n.toList ns.toList (at_not_mem_of_valid hn)
    unfold ComponentKey.from_typename
    rw [if_neg (by simp [hnoPy])]
    unfold GlobalComponentKey.from_typename
    rw [nnft_ok hsplit hn1 hns1 hn2 hns2]
    rfl
  · -- local text form never reparses
    have hllist := toList_local_typename n ns d
    have hnoPy : strEndsWith (ComponentKey.localKey n ns d).to_typename ".py" = false := by
      cases hEnds : strEndsWith (ComponentKey.localKey n ns d).to_typename ".py" with
      | false => rfl
      | true =>
        exfalso
        have hsuff : ['.', 'p', 'y'] <:+
            (ComponentKey.localKey n ns d).to_typename.toList := by
          have := of_decide_eq_true hEnds
          simpa using this
        obtain ⟨pre, hpre⟩ := hsuff
        have hconc : (ComponentKey.localKey n ns d).to_typename.toList =
            ((((n ++ "@") ++ ns) ++ " (") ++ d).data ++ [')'] := by
          show (((((n ++ "@") ++ ns) ++ " (") ++ d) ++ ")").data = _
          simp [String.data_append]
        have hy : (ComponentKey.localKey n ns d).to_typename.toList.getLast? =
            some 'y' := by
          rw [← hpre]
          have : pre ++ ['.', 'p', 'y'] = (pre ++ ['.', 'p']) ++ ['y'] := by
            simp
          rw [this, List.getLast?_concat]
        rw [hconc, List.getLast?_concat] at hy
        simp at hy
    have hsp : ' ' ∈ (ComponentKey.localKey n ns d).to_typename.toList := by
      rw [hllist]
      exact List.mem_append_right _ (List.mem_cons_of_mem _
        (List.mem_append_right _ (by simp)))
    have herr := nnft_error_of_bad_char hsp (by decide) (by decide)
    unfold ComponentKey.from_typename
    rw [if_neg (by simp [hnoPy])]
    unfold GlobalComponentKey.from_typename
    rw [herr]
    rfl

/-- Witness for the amended round-trip at `n = "a"`, `ns = "b"`,
`d = "d"`. -/
theorem roundtrip_amended_witness :
    isValidName "a" = true ∧
    (ComponentKey.from_typename ((ComponentKey.globalKey "a" "b").to_typename) "d" =
        .ok (ComponentKey.globalKey "a" "b") ∧
      ComponentKey.from_typename ((ComponentKey.localKey "a" "b" "d").to_typename) "d" =
        .error (.valueError ("Invalid component type name: " ++
          (ComponentKey.localKey "a" "b" "d").to_typename))) :=
  ⟨rfl, roundtrip_amended "a" "b" "d" rfl rfl⟩

/-! ### C3 — `has_global` on local keys -/

/-- The claim's counterexample: a local key stored in the mapping makes
`has_global` answer `true`, because the source implements it as plain
membership with no variant check. -/
theorem has_global_stored_local_true :
    RemoteComponentRegistry.has_global
      ⟨[(ComponentKey.localKey "a" "b" "d", sampleRct)]⟩
      (ComponentKey.localKey "a" "b" "d") = true := rfl

/-- Claim C3, amended: `has_global` is plain membership.  A local key is never
equal to a stored global key (variants are distinct), so it answers
`false` over an all-global mapping even when name/namespace match; but
a stored local key answers `true`. -/
theorem has_global_amended (comps : List (ComponentKey × RemoteComponentType))
    (n ns d : String) :
    ((∀ k ∈ comps.map Prod.fst, k.isGlobal = true) →
      RemoteComponentRegistry.has_global ⟨comps⟩
        (ComponentKey.localKey n ns d) = false) ∧
    (∀ v, RemoteComponentRegistry.has_global
        ⟨(ComponentKey.localKey n ns d, v) :: comps⟩
        (ComponentKey.localKey n ns d) = true) := by
  constructor
  · intro hall
    have : pyLookup comps (ComponentKey.localKey n ns d) = none := by
      apply pyLookup_eq_none
      intro k hk heq
      have := hall k hk
      rw [heq] at this
      simp [ComponentKey.isGlobal] at this
    simp [RemoteComponentRegistry.has_global, this]
  · intro v
    simp [RemoteComponentRegistry.has_global, pyLookup]

/-- Witness: at a mapping holding the global key `("a", "b")`, the
local key `("a", "b", "d")` with the same name/namespace is not a
member; a stored local key is. -/
theorem has_global_amended_witness :
    (RemoteComponentRegistry.has_global
        ⟨[(ComponentKey.globalKey "a" "b", sampleRct)]⟩
        (ComponentKey.localKey "a" "b" "d") = false) ∧
    (RemoteComponentRegistry.has_global
        ⟨[(ComponentKey.localKey "a" "b" "d", sampleRct),
          (ComponentKey.globalKey "a" "b", sampleRct)]⟩
        (ComponentKey.localKey "a" "b" "d") = true) :=
  ⟨(has_global_amended [(ComponentKey.globalKey "a" "b", sampleRct)] "a" "b" "d").1
      (by intro k hk; simp at hk; rw [hk]; rfl),
   (has_global_amended [(ComponentKey.globalKey "a" "b", sampleRct)] "a" "b" "d").2
      sampleRct⟩

/-! ### C9 — descriptor construction from raw metadata -/

/-- The claim's counterexample: a metadata object carrying only the
required fields `name` and `package` does *not* translate — the
dataclass has no defaults, so the call raises `TypeError`. -/
theorem translator_requires_all_fields_concrete :
    _get_remote_type_mapping_from_raw_data
      (Json.obj [("foo@ns", Json.obj [("name", Json.str "Foo"),
        ("package", Json.str "p")])]) =
      .error (.typeError "missing required argument") := rfl

/-- Claim C9, amended: all six descriptor fields must be supplied (the optional
four may be `null`); omitting any field raises, an unrecognized field
raises, and a full six-field object translates, threading through the
global translator. -/
theorem descriptor_fields_amended (n p v : Json) :
    (RemoteComponentType.ofKwargs [("name", n), ("package", p)] =
      .error (.typeError "missing required argument")) ∧
    (RemoteComponentType.ofKwargs
        [("name", n), ("package", p), ("summary", .null), ("description", .null),
         ("scaffold_params_schema", .null), ("component_params_schema", .null)] =
      .ok ⟨n, p, .null, .null, .null, .null⟩) ∧
    (RemoteComponentType.ofKwargs
        [("name", n), ("package", p), ("summary", .null), ("description", .null),
         ("scaffold_params_schema", .null), ("component_params_schema", .null),
         ("unrecognized", v)] =
      .error (.typeError "unexpected keyword argument")) ∧
    (_get_remote_type_mapping_from_raw_data
        (Json.obj [("foo@ns", Json.obj
          [("name", n), ("package", p), ("summary", .null), ("description", .null),
           ("scaffold_params_schema", .null), ("component_params_schema", .null)])]) =
      .ok [(ComponentKey.globalKey "foo" "ns", ⟨n, p, .null, .null, .null, .null⟩)]) :=
  ⟨rfl, rfl, rfl, rfl⟩

/-! ### C8 — `global_items` is exact and sorted -/

theorem charListLe_cons_iff (x y : Char) (xs ys : List Char) :
    charListLe (x :: xs) (y :: ys) = true ↔
      (x.toNat < y.toNat ∨ (x.toNat = y.toNat ∧ charListLe xs ys = true)) := by
  simp only [charListLe]
  by_cases h1 : x.toNat < y.toNat
  · simp [h1]
  · by_cases h2 : y.toNat < x.toNat
    · rw [if_neg h1, if_pos h2]
      constructor
      · intro h; exact absurd h (by simp)
      · intro h
        rcases h with h | h
        · omega
        · omega
    · have hxy : x.toNat = y.toNat := by omega
      simp [h1, h2, hxy]

theorem charListLe_trans : ∀ (a b c : List Char),
    charListLe a b = true → charListLe b c = true → charListLe a c = true := by
  intro a
  induction a with
  | nil => intro b c _ _; rfl
  | cons x xs ih =>
    intro b c hab hbc
    cases b with
    | nil => simp [charListLe] at hab
    | cons y ys =>
      cases c with
      | nil => simp [charListLe] at hbc
      | cons z zs =>
        rw [charListLe_cons_iff] at hab hbc ⊢
        rcases hab with hab | ⟨hab1, hab2⟩
        · rcases hbc with hbc | ⟨hbc1, _⟩
          · exact Or.inl (by omega)
          · exact Or.inl (by omega)
        · rcases hbc with hbc | ⟨hbc1, hbc2⟩
          · exact Or.inl (by omega)
          · exact Or.inr ⟨by omega, ih ys zs hab2 hbc2⟩

theorem charListLe_total : ∀ (a b : List Char),
    charListLe a b = true ∨ charListLe b a = true := by
  intro a
  induction a with
  | nil => intro b; exact Or.inl rfl
  | cons x xs ih =>
    intro b
    cases b with
    | nil => exact Or.inr rfl
    | cons y ys =>
      rw [charListLe_cons_iff, charListLe_cons_iff]
      by_cases h1 : x.toNat < y.toNat
      · exact Or.inl (Or.inl h1)
      · by_cases h2 : y.toNat < x.toNat
        · exact Or.inr (Or.inl h2)
        · rcases ih ys with h | h
          · exact Or.inl (Or.inr ⟨by omega, h⟩)
          · exact Or.inr (Or.inr ⟨by omega, h⟩)

theorem keyLeBool_trans : ∀ (a b c : ComponentKey),
    keyLeBool a b = true → keyLeBool b c = true → keyLeBool a c = true :=
  fun _ _ _ hab hbc => charListLe_trans _ _ _ hab hbc

theorem keyLeBool_total : ∀ (a b : ComponentKey),
    (keyLeBool a b || keyLeBool b a) = true := by
  intro a b
  rw [Bool.or_eq_true]
  exact charListLe_total a.to_typename.toList b.to_typename.toList

theorem pyLookup_isSome_iff {α β : Type} [DecidableEq α]
    (l : List (α × β)) (a : α) :
    (pyLookup l a).isSome = true ↔ a ∈ l.map Prod.fst := by
  induction l with
  | nil => simp [pyLookup]
  | cons kv rest ih =>
    by_cases h : kv.1 = a
    · simp [pyLookup, h]
    · simp [pyLookup, h, ih, Ne.symm h]

theorem pyLookup_eq_some_of_mem {α β : Type} [DecidableEq α]
    {l : List (α × β)} (hnd : (l.map Prod.fst).Nodup) {k : α} {v : β}
    (hmem : (k, v) ∈ l) : pyLookup l k = some v := by
  induction l with
  | nil => simp at hmem
  | cons kv rest ih =>
    rcases List.mem_cons.mp hmem with heq | hmem'
    · rw [← heq]
      simp [pyLookup]
    · have hk : kv.1 ≠ k := by
        intro he
        have : k ∈ rest.map Prod.fst := List.mem_map.mpr ⟨(k, v), hmem', rfl⟩
        rw [List.map_cons, List.nodup_cons] at hnd
        exact hnd.1 (he ▸ this)
      rw [List.map_cons, List.nodup_cons] at hnd
      simp only [pyLookup, if_neg hk]
      exact ih hnd.2 hmem'

theorem mem_of_pyLookup_eq_some {α β : Type} [DecidableEq α] :
    ∀ {l : List (α × β)} {k : α} {v : β},
    pyLookup l k = some v → (k, v) ∈ l := by
  intro l
  induction l with
  | nil => intro k v h; simp [pyLookup] at h
  | cons kv rest ih =>
    intro k v h
    by_cases hk : kv.1 = k
    · rw [pyLookup, if_pos hk] at h
      injection h with h
      have : (k, v) = kv := by rw [← hk, ← h]
      rw [this]
      exact List.mem_cons_self kv rest
    · rw [pyLookup, if_neg hk] at h
      exact List.mem_cons_of_mem kv (ih h)

theorem filterMap_pair_fst_sublist {α β : Type} (g : α → Option β) :
    ∀ (l : List α),
    List.Sublist ((l.filterMap (fun k => (g k).map (fun v => (k, v)))).map Prod.fst) l := by
  intro l
  induction l with
  | nil => simp
  | cons k rest ih =>
    cases hg : g k with
    | none => simpa [List.filterMap_cons, hg] using ih.cons k
    | some v => simpa [List.filterMap_cons, hg] using ih.cons₂ k

/-- Claim C8: `global_items()` is exact and sorted: over a well-formed mapping
(unique keys, as every Python dict guarantees), it contains exactly one
pair per stored *global* key, paired with the stored descriptor, and
the pairs are in ascending lexicographic order of the keys' canonical
text form. -/
theorem global_items_exact_sorted
    (comps : List (ComponentKey × RemoteComponentType))
    (hnd : (comps.map Prod.fst).Nodup) :
    (∀ k v, ((k, v) ∈ RemoteComponentRegistry.global_items ⟨comps⟩ ↔
      (k.isGlobal = true ∧ (k, v) ∈ comps))) ∧
    ((RemoteComponentRegistry.global_items ⟨comps⟩).map Prod.fst).Nodup ∧
    (RemoteComponentRegistry.global_items ⟨comps⟩).Pairwise
      (fun a b => keyLeBool a.1 b.1 = true) := by
  have hperm : List.Perm ((comps.map Prod.fst).mergeSort keyLeBool)
      (comps.map Prod.fst) :=
    List.mergeSort_perm _ _
  have hkeys_mem : ∀ k, k ∈ RemoteComponentRegistry.global_keys ⟨comps⟩ ↔
      (k.isGlobal = true ∧ k ∈ comps.map Prod.fst) := by
    intro k
    unfold RemoteComponentRegistry.global_keys
    rw [List.mem_filter, hperm.mem_iff]
    exact and_comm
  refine ⟨?_, ?_, ?_⟩
  · intro k v
    unfold RemoteComponentRegistry.global_items
    rw [List.mem_filterMap]
    constructor
    · rintro ⟨a, ha, hfa⟩
      obtain ⟨v', hv', heq⟩ := Option.map_eq_some'.mp hfa
      have hak : a = k := congrArg Prod.fst heq
      have hvv : v' = v := congrArg Prod.snd heq
      subst hak; subst hvv
      exact ⟨((hkeys_mem a).mp ha).1, mem_of_pyLookup_eq_some hv'⟩
    · rintro ⟨hg, hmem⟩
      refine ⟨k, (hkeys_mem k).mpr ⟨hg, List.mem_map.mpr ⟨(k, v), hmem, rfl⟩⟩, ?_⟩
      rw [pyLookup_eq_some_of_mem hnd hmem]
      rfl
  · have hks : (RemoteComponentRegistry.global_keys ⟨comps⟩).Nodup :=
      (hperm.symm.nodup hnd).filter _
    exact (filterMap_pair_fst_sublist _ _).nodup hks
  · have hsorted := List.sorted_mergeSort keyLeBool_trans keyLeBool_total
      (comps.map Prod.fst)
    have hkeys : (RemoteComponentRegistry.global_keys ⟨comps⟩).Pairwise
        (fun a b => keyLeBool a b = true) :=
      hsorted.filter _
    unfold RemoteComponentRegistry.global_items
    rw [List.pairwise_filterMap]
    refine hkeys.imp ?_
    intro a b hab p hp q hq
    obtain ⟨_, _, heqp⟩ := Option.map_eq_some'.mp (Option.mem_def.mp hp)
    obtain ⟨_, _, heqq⟩ := Option.map_eq_some'.mp (Option.mem_def.mp hq)
    rw [← heqp, ← heqq]
    exact hab

/-- Witness for `global_items_exact_sorted` at a concrete
three-entry mapping. -/
theorem global_items_exact_sorted_witness :
    (([(ComponentKey.globalKey "b" "x", sampleRct),
       (ComponentKey.localKey "a" "y" "d", sampleRct),
       (ComponentKey.globalKey "a" "x", sampleRct)].map Prod.fst).Nodup) ∧
    ((∀ k v, ((k, v) ∈ RemoteComponentRegistry.global_items
        ⟨[(ComponentKey.globalKey "b" "x", sampleRct),
          (ComponentKey.localKey "a" "y" "d", sampleRct),
          (ComponentKey.globalKey "a" "x", sampleRct)]⟩ ↔
      (k.isGlobal = true ∧ (k, v) ∈
        [(ComponentKey.globalKey "b" "x", sampleRct),
         (ComponentKey.localKey "a" "y" "d", sampleRct),
         (ComponentKey.globalKey "a" "x", sampleRct)]))) ∧
    ((RemoteComponentRegistry.global_items
        ⟨[(ComponentKey.globalKey "b" "x", sampleRct),
          (ComponentKey.localKey "a" "y" "d", sampleRct),
          (ComponentKey.globalKey "a" "x", sampleRct)]⟩).map Prod.fst).Nodup ∧
    (RemoteComponentRegistry.global_items
        ⟨[(ComponentKey.globalKey "b" "x", sampleRct),
          (ComponentKey.localKey "a" "y" "d", sampleRct),
          (ComponentKey.globalKey "a" "x", sampleRct)]⟩).Pairwise
      (fun a b => keyLeBool a.1 b.1 = true)) :=
  ⟨by decide,
   global_items_exact_sorted
     [(ComponentKey.globalKey "b" "x", sampleRct),
      (ComponentKey.localKey "a" "y" "d", sampleRct),
      (ComponentKey.globalKey "a" "x", sampleRct)] (by decide)⟩

/-! ### Execution-state lemmas -/

theorem except_bind_error {ε α β : Type} (e : ε) (f : α → Except ε β) :
    (Except.error e >>= f) = Except.error e := rfl

theorem except_bind_ok {ε α β : Type} (a : α) (f : α → Except ε β) :
    (Except.ok a >>= f) = f a := rfl

theorem uvAdj_cache (b : Bool) (st : ExecState) :
    (if b then ensure_uv_lock st else st).cache = st.cache := by
  cases b <;> rfl

theorem uvAdj_calls (b : Bool) (st : ExecState) :
    (if b then ensure_uv_lock st else st).calls = st.calls := by
  cases b <;> rfl

theorem writeBackLoop_calls (ctx : DgContext) (respKvs : List (String × Json)) :
    ∀ (ps : List String) (st : ExecState),
    (writeBackLoop ctx respKvs ps st).calls = st.calls := by
  intro ps
  induction ps with
  | nil => intro st; rfl
  | cons path rest ih =>
    intro st
    unfold writeBackLoop
    rw [ih]
    split <;> rfl

/-- `_retrieve_local_component_types` either makes no external call or
appends exactly one call, whose command is
`list local-component-types`. -/
theorem rlct_calls (ctx : DgContext) (paths : List String) (st : ExecState) :
    ((_retrieve_local_component_types ctx paths st).2.calls = st.calls) ∨
    (∃ tf, (_retrieve_local_component_types ctx paths st).2.calls =
      st.calls ++ [("list" :: "local-component-types" :: tf)]) := by
  cases hloop : (if ctx.has_cache then
      localCacheLoop ctx st.cache paths (pySetOfList paths, [])
    else .ok (pySetOfList paths, [])) with
  | error e =>
    left
    simp only [_retrieve_local_component_types, hloop]
  | ok p =>
    obtain ⟨ptf, data⟩ := p
    by_cases hempty : ptf.isEmpty
    · left
      simp only [_retrieve_local_component_types, hloop, hempty, if_true]
    · cases hext : ctx.external_components_command
          ("list" :: "local-component-types" :: ptf) with
      | error e =>
        right
        refine ⟨ptf, ?_⟩
        simp only [_retrieve_local_component_types, hloop, hempty, hext,
          Bool.false_eq_true, if_false, recordCall]
      | ok raw =>
        cases hload : Json.loads raw with
        | error e =>
          right
          refine ⟨ptf, ?_⟩
          simp only [_retrieve_local_component_types, hloop, hempty, hext, hload,
            Bool.false_eq_true, if_false, recordCall]
        | ok j =>
          cases j with
          | obj respKvs =>
            cases hmerge : mergeFetchedLoop respKvs ptf data with
            | error e =>
              right
              refine ⟨ptf, ?_⟩
              simp only [_retrieve_local_component_types, hloop, hempty, hext, hload,
                hmerge, Bool.false_eq_true, if_false, recordCall]
            | ok data2 =>
              right
              refine ⟨ptf, ?_⟩
              by_cases hcache : ctx.has_cache
              · have hloop' : localCacheLoop ctx st.cache paths (pySetOfList paths, []) =
                    .ok (ptf, data) := by
                  rw [hcache] at hloop
                  simpa using hloop
                simp only [_retrieve_local_component_types, hcache, if_true, hloop',
                  hempty, Bool.false_eq_true, if_false, hext, hload, hmerge]
                rw [writeBackLoop_calls]
                rfl
              · have hloop2 : (Except.ok (pySetOfList paths,
                    ([] : List (ComponentKey × RemoteComponentType))) :
                      Except PyError
                        (List String × List (ComponentKey × RemoteComponentType))) =
                    .ok (ptf, data) := by
                  rw [if_neg hcache] at hloop
                  exact hloop
                injection hloop2 with hp
                have hp1 : pySetOfList paths = ptf := congrArg Prod.fst hp
                have hp2 : ([] : List (ComponentKey × RemoteComponentType)) = data :=
                  congrArg Prod.snd hp
                subst hp1
                subst hp2
                simp only [_retrieve_local_component_types, hcache, Bool.false_eq_true,
                  if_false, hempty, hext, hload, hmerge, recordCall]
          | null =>
            right
            refine ⟨ptf, ?_⟩
            simp only [_retrieve_local_component_types, hloop, hempty, hext, hload,
              Bool.false_eq_true, if_false, recordCall]
          | bool b =>
            right
            refine ⟨ptf, ?_⟩
            simp only [_retrieve_local_component_types, hloop, hempty, hext, hload,
              Bool.false_eq_true, if_false, recordCall]
          | num n =>
            right
            refine ⟨ptf, ?_⟩
            simp only [_retrieve_local_component_types, hloop, hempty, hext, hload,
              Bool.false_eq_true, if_false, recordCall]
          | str s2 =>
            right
            refine ⟨ptf, ?_⟩
            simp only [_retrieve_local_component_types, hloop, hempty, hext, hload,
              Bool.false_eq_true, if_false, recordCall]
          | arr xs =>
            right
            refine ⟨ptf, ?_⟩
            simp only [_retrieve_local_component_types, hloop, hempty, hext, hload,
              Bool.false_eq_true, if_false, recordCall]

theorem pySetOfList_singleton (p : String) : pySetOfList [p] = [p] := by
  simp [pySetOfList]

/-! ### C7 — a global cache hit never triggers a global fetch -/

/-- Claim C7: with the cache available and a non-empty, JSON-parseable entry
under the global-scope cache key, construction never invokes the
external process with the `list component-types` command (the only
call it can still make is the local `list local-component-types`
batch). -/
theorem cache_hit_no_component_types_call (ctx : DgContext)
    (dirs : List String) (st : ExecState) (s : String) (j : Json)
    (hc : ctx.has_cache = true) (hcalls : st.calls = [])
    (hlook : pyLookup st.cache (ctx.get_cache_key "component_registry_data") =
      some s)
    (hne : s.isEmpty = false) (hload : Json.loads s = .ok j) :
    ["list", "component-types"] ∉
      (RemoteComponentRegistry.from_dg_context ctx dirs st).2.calls := by
  have hcache' : (if ctx.use_dg_managed_environment then
      ensure_uv_lock st else st).cache = st.cache := uvAdj_cache _ _
  have hcalls' : (if ctx.use_dg_managed_environment then
      ensure_uv_lock st else st).calls = [] := by rw [uvAdj_calls]; exact hcalls
  show ["list", "component-types"] ∉
    (fromDgContextCore ctx dirs
      (if ctx.use_dg_managed_environment then ensure_uv_lock st else st)).2.calls
  generalize hst : (if ctx.use_dg_managed_environment then
      ensure_uv_lock st else st) = st' at hcache' hcalls' ⊢
  simp only [fromDgContextCore, hc, if_true, hcache', hlook, pyTruthyOptStr,
    hne, Bool.not_false, Bool.not_true, Bool.false_eq_true, if_false,
    Option.getD_some]
  simp only [fromRawRegistryData, hload]
  cases htr : _get_remote_type_mapping_from_raw_data j with
  | error e => simp [htr, hcalls']
  | ok m =>
    simp only [htr]
    by_cases hd : dirs.isEmpty
    · simp [hd, hcalls']
    · simp only [hd, Bool.false_eq_true, Bool.not_false, if_true, if_false]
      rcases hr : _retrieve_local_component_types ctx dirs st' with ⟨res, st2⟩
      have htrace := rlct_calls ctx dirs st'
      rw [hr] at htrace
      cases res with
      | error e =>
        simp only [hr]
        rcases htrace with h | ⟨tf, h⟩
        · have h2 : st2.calls = st'.calls := h
          simp [h2, hcalls']
        · have h2 : st2.calls =
              st'.calls ++ [("list" :: "local-component-types" :: tf)] := h
          simp [h2, hcalls']
      | ok localData =>
        simp only [hr]
        rcases htrace with h | ⟨tf, h⟩
        · have h2 : st2.calls = st'.calls := h
          simp [h2, hcalls']
        · have h2 : st2.calls =
              st'.calls ++ [("list" :: "local-component-types" :: tf)] := h
          simp [h2, hcalls']

/-- Witness for the cache-hit theorem at a concrete context whose
external process rejects every invocation: construction still cannot
have made a `list component-types` call. -/
theorem cache_hit_no_component_types_call_witness :
    (pyLookup (⟨[("g:component_registry_data", "\x7b\x7d")], [], false⟩ :
        ExecState).cache
      ((⟨true, false, fun sc => "g:" ++ sc, fun p => "l:" ++ p,
          fun _ => .error (.valueError "no call expected")⟩ :
        DgContext).get_cache_key "component_registry_data") =
      some "\x7b\x7d") ∧
    ["list", "component-types"] ∉
      (RemoteComponentRegistry.from_dg_context
        ⟨true, false, fun sc => "g:" ++ sc, fun p => "l:" ++ p,
          fun _ => .error (.valueError "no call expected")⟩ []
        ⟨[("g:component_registry_data", "\x7b\x7d")], [], false⟩).2.calls :=
  ⟨rfl,
   cache_hit_no_component_types_call
     ⟨true, false, fun sc => "g:" ++ sc, fun p => "l:" ++ p,
       fun _ => .error (.valueError "no call expected")⟩ []
     ⟨[("g:component_registry_data", "\x7b\x7d")], [], false⟩
     "\x7b\x7d" (Json.obj []) rfl rfl rfl rfl rfl⟩

/-! ### C2 — corrupt cache entries raise instead of refetching -/

/-- Context for the corrupt-cache counterexample: the external process
rejects every invocation, so any successful-looking outcome cannot have
fetched. -/
def c2Ctx : DgContext :=
  ⟨true, false, fun sc => "g:" ++ sc, fun p => "l:" ++ p,
    fun _ => .error (.valueError "no call expected")⟩

/-- Initial state for the corrupt-cache counterexample: the
global-scope entry holds the non-empty, unparseable string
`"not json"`. -/
def c2St : ExecState :=
  ⟨[("g:component_registry_data", "not json")], [], false⟩

/-- The claim's counterexample: with a corrupt (non-empty, unparseable)
global-scope cache entry, construction raises `json.JSONDecodeError`
and performs *no* external fetch — it does not treat the entry as a
cache miss. -/
theorem corrupt_cache_raises_concrete :
    (RemoteComponentRegistry.from_dg_context c2Ctx [] c2St).1 =
      .error .jsonDecodeError ∧
    (RemoteComponentRegistry.from_dg_context c2Ctx [] c2St).2.calls = [] :=
  ⟨rfl, rfl⟩

/-- Claim C2, amended: only a missing or empty cached entry is a cache miss.  A
non-empty entry short-circuits the fetch unconditionally, and when it
is unparseable the construction raises `json.JSONDecodeError` with no
external call — for the global scope and equally for a local
directory's scope. -/
theorem corrupt_cache_amended :
    (∀ (ctx : DgContext) (dirs : List String) (st : ExecState) (s : String),
      ctx.has_cache = true →
      pyLookup st.cache (ctx.get_cache_key "component_registry_data") = some s →
      s.isEmpty = false → Json.loads s = .error .jsonDecodeError →
      (RemoteComponentRegistry.from_dg_context ctx dirs st).1 =
          .error .jsonDecodeError ∧
        (RemoteComponentRegistry.from_dg_context ctx dirs st).2.calls = st.calls) ∧
    (∀ (ctx : DgContext) (st : ExecState) (p gs s : String) (gj : Json)
        (gm : List (ComponentKey × RemoteComponentType)),
      ctx.has_cache = true →
      pyLookup st.cache (ctx.get_cache_key "component_registry_data") = some gs →
      gs.isEmpty = false → Json.loads gs = .ok gj →
      _get_remote_type_mapping_from_raw_data gj = .ok gm →
      pyLookup st.cache (ctx.get_cache_key_for_local_components p) = some s →
      s.isEmpty = false → Json.loads s = .error .jsonDecodeError →
      (RemoteComponentRegistry.from_dg_context ctx [p] st).1 =
          .error .jsonDecodeError ∧
        (RemoteComponentRegistry.from_dg_context ctx [p] st).2.calls = st.calls) := by
  constructor
  · intro ctx dirs st s hc hlook hne hload
    have hcache' : (if ctx.use_dg_managed_environment then
        ensure_uv_lock st else st).cache = st.cache := uvAdj_cache _ _
    have hcalls' : (if ctx.use_dg_managed_environment then
        ensure_uv_lock st else st).calls = st.calls := uvAdj_calls _ _
    show (fromDgContextCore ctx dirs _).1 = _ ∧ (fromDgContextCore ctx dirs _).2.calls = _
    generalize (if ctx.use_dg_managed_environment then
        ensure_uv_lock st else st) = st' at hcache' hcalls' ⊢
    simp only [fromDgContextCore, hc, if_true, hcache', hlook, pyTruthyOptStr,
      hne, Bool.not_false, Bool.not_true, Bool.false_eq_true, if_false,
      Option.getD_some]
    simp only [fromRawRegistryData, hload]
    exact ⟨trivial, hcalls'⟩
  · intro ctx st p gs s gj gm hc hg hgne hgload hgtr hlook hne hload
    have hcache' : (if ctx.use_dg_managed_environment then
        ensure_uv_lock st else st).cache = st.cache := uvAdj_cache _ _
    have hcalls' : (if ctx.use_dg_managed_environment then
        ensure_uv_lock st else st).calls = st.calls := uvAdj_calls _ _
    show (fromDgContextCore ctx [p] _).1 = _ ∧ (fromDgContextCore ctx [p] _).2.calls = _
    generalize (if ctx.use_dg_managed_environment then
        ensure_uv_lock st else st) = st' at hcache' hcalls' ⊢
    simp only [fromDgContextCore, hc, if_true, hcache', hg, pyTruthyOptStr,
      hgne, Bool.not_false, Bool.not_true, Bool.false_eq_true, if_false,
      Option.getD_some]
    simp only [fromRawRegistryData, hgload, hgtr]
    have hloop : localCacheLoop ctx st'.cache [p] (pySetOfList [p], []) =
        .error .jsonDecodeError := by
      rw [pySetOfList_singleton]
      unfold localCacheLoop
      rw [hcache']
      simp only [hlook, hne, Bool.not_false, if_true, hload, except_bind_error]
    simp only [List.isEmpty_cons, Bool.false_eq_true, Bool.not_false, if_true,
      if_false]
    simp only [_retrieve_local_component_types, hc, if_true, hloop]
    exact ⟨trivial, hcalls'⟩

/-- State for the local-scope half of the corrupt-cache witness: a
valid global entry and a corrupt entry for path `"p"`. -/
def c2StLocal : ExecState :=
  ⟨[("g:component_registry_data", "\x7b\x7d"), ("l:p", "bad")], [], false⟩

/-- Witness for `corrupt_cache_amended` at concrete corrupt entries,
for the global scope and for a local directory's scope. -/
theorem corrupt_cache_amended_witness :
    ((RemoteComponentRegistry.from_dg_context c2Ctx ["d"] c2St).1 =
        .error .jsonDecodeError ∧
      (RemoteComponentRegistry.from_dg_context c2Ctx ["d"] c2St).2.calls =
        c2St.calls) ∧
    ((RemoteComponentRegistry.from_dg_context c2Ctx ["p"] c2StLocal).1 =
        .error .jsonDecodeError ∧
      (RemoteComponentRegistry.from_dg_context c2Ctx ["p"] c2StLocal).2.calls =
        c2StLocal.calls) :=
  ⟨corrupt_cache_amended.1 c2Ctx ["d"] c2St "not json" rfl rfl rfl rfl,
   corrupt_cache_amended.2 c2Ctx c2StLocal "p" "\x7b\x7d" "bad" (Json.obj []) []
     rfl rfl rfl rfl rfl rfl rfl rfl⟩

/-! ### C10 — duplicate cached paths raise `KeyError` -/

theorem pyErase_subset {α : Type} [DecidableEq α] :
    ∀ (l : List α) (a x : α), x ∈ pyErase l a → x ∈ l := by
  intro l
  induction l with
  | nil => intro a x h; simp [pyErase] at h
  | cons y ys ih =>
    intro a x h
    rw [pyErase] at h
    by_cases hy : y = a
    · rw [if_pos hy] at h
      exact List.mem_cons_of_mem y h
    · rw [if_neg hy] at h
      rcases List.mem_cons.mp h with h | h
      · rw [h]
        exact List.mem_cons_self y ys
      · exact List.mem_cons_of_mem y (ih a x h)

theorem pyErase_nodup {α : Type} [DecidableEq α] :
    ∀ (l : List α) (a : α), l.Nodup → (pyErase l a).Nodup := by
  intro l
  induction l with
  | nil => intro a _; exact List.nodup_nil
  | cons y ys ih =>
    intro a hnd
    rw [List.nodup_cons] at hnd
    rw [pyErase]
    by_cases hy : y = a
    · rw [if_pos hy]
      exact hnd.2
    · rw [if_neg hy]
      rw [List.nodup_cons]
      exact ⟨fun hmem => hnd.1 (pyErase_subset ys a y hmem), ih a hnd.2⟩

theorem not_mem_pyErase_self {α : Type} [DecidableEq α] :
    ∀ (l : List α) (a : α), l.Nodup → a ∉ pyErase l a := by
  intro l
  induction l with
  | nil => intro a _ h; simp [pyErase] at h
  | cons y ys ih =>
    intro a hnd hmem
    rw [List.nodup_cons] at hnd
    rw [pyErase] at hmem
    by_cases hy : y = a
    · rw [if_pos hy] at hmem
      exact hnd.1 (hy ▸ hmem)
    · rw [if_neg hy] at hmem
      rcases List.mem_cons.mp hmem with h | h
      · exact hy (h.symm)
      · exact ih a hnd.2 h

theorem pySetOfList_nodup_aux {α : Type} [DecidableEq α] :
    ∀ (l acc : List α), acc.Nodup →
    (l.foldl (fun acc x => if x ∈ acc then acc else acc ++ [x]) acc).Nodup := by
  intro l
  induction l with
  | nil => intro acc h; exact h
  | cons x l ih =>
    intro acc hnd
    rw [List.foldl_cons]
    by_cases hx : x ∈ acc
    · rw [if_pos hx]
      exact ih acc hnd
    · rw [if_neg hx]
      refine ih (acc ++ [x]) ?_
      rw [List.nodup_append]
      exact ⟨hnd, List.nodup_singleton x, by
        intro a ha hax
        rw [List.mem_singleton] at hax
        exact hx (hax ▸ ha)⟩

theorem pySetOfList_nodup {α : Type} [DecidableEq α] (l : List α) :
    (pySetOfList l).Nodup :=
  pySetOfList_nodup_aux l [] List.nodup_nil

/-- A path whose derived cache key holds a truthy entry that parses and
translates cleanly — exactly the situation the claim calls "a valid
cached entry exists for that path". -/
def ValidLocalEntry (ctx : DgContext) (cache : List (String × String))
    (q : String) : Prop :=
  ∃ s j m, pyLookup cache (ctx.get_cache_key_for_local_components q) = some s ∧
    s.isEmpty = false ∧ Json.loads s = .ok j ∧
    _get_local_type_mapping_from_raw_data j q = .ok m

theorem localCacheLoop_append (ctx : DgContext) (cache : List (String × String)) :
    ∀ (L1 L2 : List String)
      (acc : List String × List (ComponentKey × RemoteComponentType)),
    localCacheLoop ctx cache (L1 ++ L2) acc =
      (localCacheLoop ctx cache L1 acc) >>= localCacheLoop ctx cache L2 := by
  intro L1
  induction L1 with
  | nil => intro L2 acc; rfl
  | cons q L1' ih =>
    intro L2 acc
    show localCacheLoop ctx cache (q :: (L1' ++ L2)) acc = _
    unfold localCacheLoop
    cases hq : pyLookup cache (ctx.get_cache_key_for_local_components q) with
    | none =>
      simp only [hq]
      exact ih L2 acc
    | some raw =>
      simp only [hq]
      by_cases hre : raw.isEmpty
      · simp only [hre, Bool.not_true, Bool.false_eq_true, if_false]
        exact ih L2 acc
      · have hre' : raw.isEmpty = false := by
          cases hraw : raw.isEmpty
          · rfl
          · exact absurd hraw hre
        simp only [hre', Bool.not_false, if_true]
        cases hld : Json.loads raw with
        | error e => simp only [hld, except_bind_error]
        | ok j =>
          simp only [hld, except_bind_ok]
          cases htr : _get_local_type_mapping_from_raw_data j q with
          | error e => simp only [htr, except_bind_error]
          | ok m =>
            simp only [htr, except_bind_ok]
            cases hrm : pySetRemove acc.1 q with
            | error e => simp only [hrm, except_bind_error]
            | ok S2 =>
              simp only [hrm, except_bind_ok]
              exact ih L2 (S2, pyUpdate acc.2 m)

theorem localCacheLoop_valid (ctx : DgContext) (cache : List (String × String)) :
    ∀ (L : List String) (S : List String)
      (data : List (ComponentKey × RemoteComponentType)),
    (∀ q ∈ L, ValidLocalEntry ctx cache q) → S.Nodup →
    localCacheLoop ctx cache L (S, data) = .error .keyError ∨
    ∃ S2 data2, localCacheLoop ctx cache L (S, data) = .ok (S2, data2) ∧
      S2.Nodup ∧ (∀ x ∈ S2, x ∈ S) ∧ (∀ q ∈ L, q ∉ S2) := by
  intro L
  induction L with
  | nil =>
    intro S data _ hnd
    right
    exact ⟨S, data, rfl, hnd, fun x hx => hx, by simp⟩
  | cons q L' ih =>
    intro S data hvalid hnd
    obtain ⟨s, j, m, hlook, hne, hload, htr⟩ := hvalid q (List.mem_cons_self q L')
    by_cases hqS : q ∈ S
    · have hrm : pySetRemove S q = .ok (pyErase S q) := by
        simp [pySetRemove, hqS]
      have hstep : localCacheLoop ctx cache (q :: L') (S, data) =
          localCacheLoop ctx cache L' (pyErase S q, pyUpdate data m) := by
        conv_lhs => unfold localCacheLoop
        simp only [hlook, hne, Bool.not_false, if_true, hload, htr, hrm,
          except_bind_ok]
      rw [hstep]
      rcases ih (pyErase S q) (pyUpdate data m)
          (fun r hr => hvalid r (List.mem_cons_of_mem q hr))
          (pyErase_nodup S q hnd) with h | ⟨S2, data2, heq, hnd2, hsub, hnot⟩
      · left; exact h
      · right
        refine ⟨S2, data2, heq, hnd2,
          fun x hx => pyErase_subset S q x (hsub x hx), ?_⟩
        intro r hr
        rcases List.mem_cons.mp hr with hr | hr
        · subst hr
          intro hmem
          exact not_mem_pyErase_self S r hnd (hsub r hmem)
        · exact hnot r hr
    · left
      have hrm : pySetRemove S q = .error .keyError := by
        simp [pySetRemove, hqS]
      unfold localCacheLoop
      simp only [hlook, hne, Bool.not_false, if_true, hload, htr, hrm,
        except_bind_ok, except_bind_error]

/-- Claim C10: a duplicated local directory whose cache entry is valid makes
construction raise `KeyError` — the second pass over the duplicate
finds the path already removed from the to-fetch set.  The global
scope and every requested directory up to the duplicate are assumed
well-formed (valid cached data), which is the situation the claim
describes. -/
theorem duplicate_path_keyerror (ctx : DgContext) (st : ExecState)
    (pre mid post : List String) (p gs : String) (gj : Json)
    (gm : List (ComponentKey × RemoteComponentType))
    (hc : ctx.has_cache = true)
    (hg : pyLookup st.cache (ctx.get_cache_key "component_registry_data") =
      some gs)
    (hgne : gs.isEmpty = false) (hgload : Json.loads gs = .ok gj)
    (hgtr : _get_remote_type_mapping_from_raw_data gj = .ok gm)
    (hvalid : ∀ q ∈ pre ++ [p] ++ mid, ValidLocalEntry ctx st.cache q) :
    (RemoteComponentRegistry.from_dg_context ctx
      (pre ++ [p] ++ mid ++ [p] ++ post) st).1 = .error .keyError := by
  have hcache' : (if ctx.use_dg_managed_environment then
      ensure_uv_lock st else st).cache = st.cache := uvAdj_cache _ _
  show (fromDgContextCore ctx _ _).1 = _
  generalize (if ctx.use_dg_managed_environment then
      ensure_uv_lock st else st) = st' at hcache' ⊢
  have hfull : localCacheLoop ctx st.cache (pre ++ [p] ++ mid ++ [p] ++ post)
      (pySetOfList (pre ++ [p] ++ mid ++ [p] ++ post), []) =
      .error .keyError := by
    have hassoc : pre ++ [p] ++ mid ++ [p] ++ post =
        (pre ++ [p] ++ mid) ++ (p :: post) := by simp
    rw [hassoc, localCacheLoop_append]
    rcases localCacheLoop_valid ctx st.cache (pre ++ [p] ++ mid)
        (pySetOfList ((pre ++ [p] ++ mid) ++ (p :: post))) []
        hvalid (pySetOfList_nodup _) with h | ⟨S2, data2, heq, hnd2, hsub, hnot⟩
    · rw [h]
      rfl
    · rw [heq, except_bind_ok]
      obtain ⟨s, j, m, hlook, hne, hload, htr⟩ := hvalid p (by simp)
      have hrm : pySetRemove S2 p = .error .keyError := by
        simp [pySetRemove, hnot p (by simp)]
      unfold localCacheLoop
      simp only [hlook, hne, Bool.not_false, if_true, hload, htr, hrm,
        except_bind_ok, except_bind_error]
  have hdirs : (pre ++ [p] ++ mid ++ [p] ++ post).isEmpty = false := by
    simp
  simp only [fromDgContextCore, hc, if_true, hcache', hg, pyTruthyOptStr,
    hgne, Bool.not_false, Bool.not_true, Bool.false_eq_true, if_false,
    Option.getD_some]
  simp only [fromRawRegistryData, hgload, hgtr]
  simp only [hdirs, Bool.not_false, if_true]
  simp only [_retrieve_local_component_types, hc, if_true, hcache', hfull]

/-- State for the duplicate-path witness: a valid global entry and a
valid (empty-object) entry for the duplicated path `"p"`. -/
def c10St : ExecState :=
  ⟨[("g:component_registry_data", "\x7b\x7d"), ("l:p", "\x7b\x7d")], [], false⟩

/-- Witness: requesting `["p", "p"]` with `"p"` validly cached makes
construction raise `KeyError`. -/
theorem duplicate_path_keyerror_witness :
    (RemoteComponentRegistry.from_dg_context c2Ctx ["p", "p"] c10St).1 =
      .error .keyError :=
  duplicate_path_keyerror c2Ctx c10St [] [] [] "p" "\x7b\x7d" (Json.obj []) []
    rfl rfl rfl rfl rfl
    (by
      intro q hq
      simp at hq
      subst hq
      exact ⟨"\x7b\x7d", Json.obj [], [], rfl, rfl, rfl, rfl⟩)

/-! ### C1 — partial local cache: the fetched batch is mistranslated -/

/-- A cached local listing for directory `A` holding one local
component type `foo@ns` with a full six-field descriptor. -/
def c1AEntry : String :=
  "\x7b\"foo@ns\": \x7b\"name\": \"foo\", \"package\": \"p\", \"summary\": null, \"description\": null, \"scaffold_params_schema\": null, \"component_params_schema\": null\x7d\x7d"

/-- Context for the partial-local-cache scenario: the external process
answers the batch request for `B` with the spec's response shape — an
object keyed by the requested path — and rejects anything else. -/
def c1Ctx : DgContext :=
  ⟨true, false, fun sc => "g:" ++ sc, fun p => "l:" ++ p,
    fun args =>
      if args = ["list", "local-component-types", "B"] then
        .ok "\x7b\"B\": \x7b\x7d\x7d"
      else .error (.valueError "unexpected invocation")⟩

/-- Initial state: a valid global entry, a valid cached entry for `A`,
and nothing cached for `B`. -/
def c1St : ExecState :=
  ⟨[("g:component_registry_data", "\x7b\x7d"), ("l:A", c1AEntry)], [], false⟩

set_option maxRecDepth 8000 in
/-- Claim C1 (code bug in the source): with directories `[A, B]` where `A`
is validly cached and `B` is not, construction *does* invoke the
external process exactly once with exactly `B` — but then passes the
whole path-keyed response to the per-item translator (source line 128
lacks the per-path projection that the cache write on line 133 has).
The first item it sees is `("B", \x7b\x7d)`: the assignment's
right-hand side `RemoteComponentType(**\x7b\x7d)` raises `TypeError`
(all six dataclass fields missing) before the path key `"B"` is even
parsed, so no registry containing `A`'s and `B`'s entries is ever
returned. -/
theorem partial_cache_merge_crashes :
    (RemoteComponentRegistry.from_dg_context c1Ctx ["A", "B"] c1St).1 =
      .error (.typeError "missing required argument") ∧
    (RemoteComponentRegistry.from_dg_context c1Ctx ["A", "B"] c1St).2.calls =
      [["list", "local-component-types", "B"]] :=
  ⟨rfl, rfl⟩

/-! ### C6 — the write-back gate is unreachable for non-empty valid responses -/

/-- Context for the write-back scenario: only `B` is requested and the
external process answers with the syntactically valid, path-keyed
response `\x7b"B": \x7b\x7d\x7d`. -/
def c6Ctx : DgContext :=
  ⟨true, false, fun sc => "g:" ++ sc, fun p => "l:" ++ p,
    fun args =>
      if args = ["list", "local-component-types", "B"] then
        .ok "\x7b\"B\": \x7b\x7d\x7d"
      else .error (.valueError "unexpected invocation")⟩

/-- Initial state for the write-back scenario: a valid global entry and
no entry for `B`. -/
def c6St : ExecState :=
  ⟨[("g:component_registry_data", "\x7b\x7d")], [], false⟩

set_option maxRecDepth 8000 in
/-- Claim C6 (code bug in the source): the claim's valid-JSON half fails: the response
for to-fetch path `B` is syntactically valid JSON, yet no cache write
for `B` happens — the merge loop (source line 128) feeds the response's
own items to the translator, whose first assignment evaluates
`RemoteComponentType(**\x7b\x7d)` on `B`'s listing object and raises
`TypeError` (all six dataclass fields missing) before the write-back
loop is reached, leaving the cache exactly as it was. -/
theorem valid_response_not_written :
    is_valid_json "\x7b\"B\": \x7b\x7d\x7d" = true ∧
    (RemoteComponentRegistry.from_dg_context c6Ctx ["B"] c6St).1 =
      .error (.typeError "missing required argument") ∧
    (RemoteComponentRegistry.from_dg_context c6Ctx ["B"] c6St).2.cache =
      c6St.cache :=
  ⟨rfl, rfl, rfl⟩
